import Mathlib

/-!
Verification development for the dprcon RCON client (src/dprcon.py).

Datagrams are modelled as lists of byte values (`List Nat`, each entry < 256
in practice). Wall-clock time is modelled by a mock clock (`Nat`): incoming
datagrams form an ordered trace of (arrival time, payload) pairs, and the
readiness-selection call advances the clock. Python exceptions are modelled
with an explicit error type and `Except` results; the one place the code can
fail with a raw attribute error on a `None` socket is modelled by a dedicated
outcome constructor.
-/

abbrev Bytes := List Nat

/-- Byte values of an ASCII string, used to transcribe the byte literals of
the Python source. -/
def asciiOf (s : String) : Bytes := s.data.map Char.toNat

/-- Constant `defaultBufferSize = 32768` from the source. -/
def defaultBufferSize : Nat := 32768

/-- Constant `defaultTimeout = 10` from the source. -/
def defaultTimeout : Nat := 10

/-- The matched prefix of `responseRegexp = re.compile(b"\377\377\377n(.*)", re.S)`:
three 0xFF bytes followed by the byte 'n'. The fourth 0xFF of the wire marker
is absent from this regular expression in the source. -/
def responsePat : Bytes := [255, 255, 255] ++ asciiOf "n"

/-- The literal prefix of
`challengeRegexp = re.compile(b"\377\377\377\377challenge (.*?)(?:$|\0)", re.S)`:
four 0xFF bytes followed by the bytes of "challenge ". -/
def challengePat : Bytes := [255, 255, 255, 255] ++ asciiOf "challenge "

/-- First index at which `pat` occurs as a contiguous subsequence of `s`,
mirroring where an unanchored `re` search finds its first match. -/
def findSubFrom (pat : Bytes) : Bytes → Option Nat
  | [] => if pat = [] then some 0 else none
  | b :: rest =>
    if pat.isPrefixOf (b :: rest) then some 0
    else (findSubFrom pat rest).map (· + 1)

/-- Semantics of the lazy group `(.*?)(?:$|\0)` applied to the suffix after
the literal prefix: the capture stops at the first NUL byte, at the end of
the data, or just before a final newline byte (in Python, `$` without
`re.M` also matches right before a trailing newline). -/
def lazyCapture : Bytes → Bytes
  | [] => []
  | b :: rest =>
    if b = 0 then []
    else if b = 10 ∧ rest = [] then []
    else b :: lazyCapture rest

/-- `InsecureRCONConnection.translateRCONResponse`: first match of
`responseRegexp` anywhere in `s`; the greedy dot-all group captures everything
after the matched prefix. An absent match gives the empty result. -/
def translateRCONResponse (s : Bytes) : Bytes :=
  match findSubFrom responsePat s with
  | some i => s.drop (i + responsePat.length)
  | none => []

/-- `ChallengeBasedSecureRCONConnection.translateChallengeResponse`: first
match of `challengeRegexp` anywhere in `s`; the lazy group captures up to the
first NUL, end of data, or before a final newline. An absent match gives the
empty result. -/
def translateChallengeResponse (s : Bytes) : Bytes :=
  match findSubFrom challengePat s with
  | some i => lazyCapture (s.drop (i + challengePat.length))
  | none => []

/-- `InsecureRCONConnection.makeRCONMessage`:
marker + "rcon " + password + " " + command. -/
def makeInsecureRCONMessage (pwd line : Bytes) : Bytes :=
  [255, 255, 255, 255] ++ asciiOf "rcon " ++ pwd ++ asciiOf " " ++ line

/-- `ChallengeBasedSecureRCONConnection.makeRCONMessage`:
marker + "srcon HMAC-MD4 CHALLENGE " + digest + " " + challenge + " " + command,
where the digest is HMAC-MD4 over "challenge command" keyed by the password.
The HMAC-MD4 primitive is kept abstract as a function argument `hm`. -/
def makeChallengeRCONMessage (hm : Bytes → Bytes → Bytes) (pwd chal line : Bytes) : Bytes :=
  [255, 255, 255, 255] ++ asciiOf "srcon HMAC-MD4 CHALLENGE " ++
    hm pwd (chal ++ asciiOf " " ++ line) ++ asciiOf " " ++ chal ++ asciiOf " " ++ line

/-- The unauthenticated challenge request written by `_recvchallenge`. -/
def getchallengePacket : Bytes := [255, 255, 255, 255] ++ asciiOf "getchallenge"

/-- The three exception classes of the source that carry protocol meaning:
`RCONConnectionRequiredException`, `RCONAlreadyConnectedException`,
`RCONChallengeTimeoutException`. -/
inductive RCONError where
  | connectionRequired
  | alreadyConnected
  | challengeTimeout
  deriving DecidableEq, Repr

/-- State of an `InsecureRCONConnection`: password, the socket handle (present
or absent), buffer size and read/write timeout. Host and port play no role in
any claim and are omitted; the socket handle carries no observable data. -/
structure InsecureConn where
  pwd : Bytes
  sock : Option Unit
  bufsize : Nat
  timeout : Nat
  deriving DecidableEq, Repr

/-- `InsecureRCONConnection.isConnected`: the socket is present. -/
def InsecureConn.isConnected (c : InsecureConn) : Bool := c.sock.isSome

/-- `InsecureRCONConnection.connect` under the `requireDisconnected` guard:
raises AlreadyConnected when a socket is present, otherwise opens the socket
(and re-applies the cached timeout to it, which leaves the state field
unchanged). -/
def InsecureConn.connect (c : InsecureConn) : Except RCONError InsecureConn :=
  if c.isConnected then .error .alreadyConnected
  else .ok { c with sock := some () }

/-- `InsecureRCONConnection.disconnect` under the `requireConnected` guard:
raises ConnectionRequired when no socket is present, otherwise closes and
clears the socket. -/
def InsecureConn.disconnect (c : InsecureConn) : Except RCONError InsecureConn :=
  if c.isConnected then .ok { c with sock := none }
  else .error .connectionRequired

/-- Body of `InsecureRCONConnection.__del__`: call `disconnect()` and swallow
only `RCONAlreadyConnectedException`; any other exception escapes. -/
def InsecureConn.del (c : InsecureConn) : Except RCONError InsecureConn :=
  match c.disconnect with
  | .ok c₂ => .ok c₂
  | .error e => if e = .alreadyConnected then .ok c else .error e

/-- `InsecureRCONConnection.__init__`: store the fields, then connect when the
`connect` flag is set. -/
def insecureInit (pwd : Bytes) (connectFlag : Bool) (bufsize timeout : Nat) :
    Except RCONError InsecureConn :=
  let c : InsecureConn := { pwd := pwd, sock := none, bufsize := bufsize, timeout := timeout }
  if connectFlag then c.connect else .ok c

/-- `InsecureRCONConnection.send` under the `requireConnected` guard: build one
message per command, join them with a single NUL byte, and write the result as
one datagram (returned here as the bytes handed to the socket). -/
def insecureSend (c : InsecureConn) (cmds : List Bytes) : Except RCONError Bytes :=
  if c.isConnected then
    .ok (List.intercalate [0] (cmds.map (makeInsecureRCONMessage c.pwd)))
  else .error .connectionRequired

/-- `InsecureRCONConnection.read` under the `requireConnected` guard: one
blocking receive (the received datagram is the `incoming` argument) decoded by
`translateRCONResponse`. -/
def insecureRead (c : InsecureConn) (incoming : Bytes) : Except RCONError Bytes :=
  if c.isConnected then .ok (translateRCONResponse incoming)
  else .error .connectionRequired

/-- State of a `ChallengeBasedSecureRCONConnection`: the inherited fields plus
the last challenge token, the challenge timeout, and the Pending Response
Buffer `recvbuf`. -/
structure ChallengeConn extends InsecureConn where
  challenge : Bytes
  challengeTimeout : Nat
  recvbuf : List Bytes
  deriving DecidableEq, Repr

/-- `ChallengeBasedSecureRCONConnection.__init__`: initialise the challenge
fields and an empty Pending Response Buffer, then invoke the parent
initialiser with `(host, port, password, connect, bufsize)` only — the
`timeout` parameter is not forwarded, so the parent receives its default
value `defaultTimeout`, and the `timeout` argument received here is unused. -/
def challengeInit (pwd : Bytes) (connectFlag : Bool)
    (bufsize timeout challengeTimeout : Nat) : Except RCONError ChallengeConn :=
  (insecureInit pwd connectFlag bufsize defaultTimeout).map
    (fun b => { toInsecureConn := b, challenge := [],
                challengeTimeout := challengeTimeout, recvbuf := [] })

/-- `ChallengeBasedSecureRCONConnection.read`: when the Pending Response
Buffer is non-empty, pop and return its oldest entry with no socket operation;
otherwise fall through to the guarded parent `read`. The third component
counts socket receive operations performed. -/
def challengeRead (c : ChallengeConn) (incoming : Bytes) :
    Except RCONError Bytes × ChallengeConn × Nat :=
  match c.recvbuf with
  | v :: rest => (.ok v, { c with recvbuf := rest }, 0)
  | [] =>
    if c.isConnected then (.ok (translateRCONResponse incoming), c, 1)
    else (.error .connectionRequired, c, 0)

/-- Result of one `_recvchallenge` negotiation: `outcome` is the returned
token, or `none` when `RCONChallengeTimeoutException` is raised; `buf` is the
Pending Response Buffer on exit; `now` the mock-clock time on exit; `selects`
logs every readiness-selection call as (call time, wait bound); `pending` the
datagrams not yet consumed. -/
structure NegoResult where
  outcome : Option Bytes
  buf : List Bytes
  now : Nat
  selects : List (Nat × Nat)
  pending : List (Nat × Bytes)
  deriving DecidableEq, Repr

/-- The `while time.time() < timeouttime` loop of `_recvchallenge`, on a mock
clock. `events` lists incoming datagrams as (arrival time, payload) in arrival
order. Each iteration calls `select` with the full `challengeTimeout` as its
wait bound (the bound the source passes on every iteration): if the next
datagram arrives within that bound the clock moves to its arrival time and it
is received, otherwise the clock moves forward by the whole bound. A received
datagram is decoded as a command response first (appended to the buffer), then
as a challenge response (returned), and otherwise dropped. `fuel` bounds the
iteration count; the top-level entry point supplies enough fuel that the bound
is never the reason the loop stops. -/
def negoLoop (cT deadline : Nat) (fuel : Nat) (now : Nat) (events : List (Nat × Bytes))
    (buf : List Bytes) (sel : List (Nat × Nat)) : NegoResult :=
  match fuel with
  | 0 => ⟨none, buf, now, sel, events⟩
  | fuel₂ + 1 =>
    if now < deadline then
      match events with
      | [] => negoLoop cT deadline fuel₂ (now + cT) [] buf (sel ++ [(now, cT)])
      | (t, s) :: rest =>
        if t ≤ now + cT then
          if translateRCONResponse s ≠ [] then
            negoLoop cT deadline fuel₂ (max now t) rest
              (buf ++ [translateRCONResponse s]) (sel ++ [(now, cT)])
          else if translateChallengeResponse s ≠ [] then
            ⟨some (translateChallengeResponse s), buf, max now t, sel ++ [(now, cT)], rest⟩
          else
            negoLoop cT deadline fuel₂ (max now t) rest buf (sel ++ [(now, cT)])
        else
          negoLoop cT deadline fuel₂ (now + cT) ((t, s) :: rest) buf (sel ++ [(now, cT)])
    else ⟨none, buf, now, sel, events⟩

/-- `_recvchallenge` after the `getchallenge` write: the deadline is the
current time plus the challenge timeout, and the loop starts with the current
Pending Response Buffer (the source appends to `self.recvbuf` in place). -/
def recvchallenge (cT : Nat) (now : Nat) (events : List (Nat × Bytes))
    (recvbuf : List Bytes) : NegoResult :=
  negoLoop cT (now + cT) (events.length + 2) now events recvbuf []

/-- Outcome of `ChallengeBasedSecureRCONConnection.send`: the datagrams
written in order together with the new state, a raised RCON exception, or the
attribute error Python raises when `self._sock.send` is called on `None`. -/
inductive SendOutcome where
  | sent (writes : List Bytes) (c₂ : ChallengeConn)
  | err (e : RCONError)
  | attrError
  deriving DecidableEq, Repr

/-- `ChallengeBasedSecureRCONConnection.send`: run `_recvchallenge` (which
first writes the `getchallenge` datagram — on an absent socket this crashes
with an attribute error before any connection guard runs), store the token,
then run the guarded parent `send`, whose per-command message builder
dispatches to `makeChallengeRCONMessage` with the stored token. -/
def challengeSend (hm : Bytes → Bytes → Bytes) (c : ChallengeConn) (cmds : List Bytes)
    (now : Nat) (events : List (Nat × Bytes)) : SendOutcome :=
  if c.isConnected then
    match (recvchallenge c.challengeTimeout now events c.recvbuf).outcome,
          (recvchallenge c.challengeTimeout now events c.recvbuf).buf with
    | none, _ => .err .challengeTimeout
    | some tok, buf₂ =>
      .sent [getchallengePacket,
             List.intercalate [0] (cmds.map (makeChallengeRCONMessage hm c.pwd tok))]
        { c with challenge := tok, recvbuf := buf₂ }
  else .attrError

/-- Concrete command-response datagram used in concrete runs:
marker + 'n' + "hi". -/
def respDatagram : Bytes := [255, 255, 255, 255] ++ asciiOf "nhi"

/-- Concrete challenge-response datagram used in concrete runs:
marker + "challenge " + "tok". -/
def chalDatagram : Bytes := [255, 255, 255, 255] ++ asciiOf "challenge tok"

/-- A constant stand-in for the abstract HMAC-MD4 primitive, used in concrete
runs. -/
def hmConst : Bytes → Bytes → Bytes := fun _ _ => [77]

/-- A never-connected insecure connection used in concrete runs. -/
def unconnInsecure : InsecureConn :=
  { pwd := [112], sock := none, bufsize := defaultBufferSize, timeout := defaultTimeout }

/-- A connected insecure connection used in concrete runs. -/
def connInsecure : InsecureConn :=
  { pwd := [112], sock := some (), bufsize := defaultBufferSize, timeout := defaultTimeout }

/-- A never-connected challenge-based connection used in concrete runs. -/
def unconnChallenge : ChallengeConn :=
  { pwd := [112], sock := none, bufsize := defaultBufferSize, timeout := defaultTimeout,
    challenge := [], challengeTimeout := defaultTimeout, recvbuf := [] }

/-- A connected challenge-based connection with an empty Pending Response
Buffer, used in concrete runs. -/
def connChallenge : ChallengeConn :=
  { pwd := [112], sock := some (), bufsize := defaultBufferSize, timeout := defaultTimeout,
    challenge := [], challengeTimeout := defaultTimeout, recvbuf := [] }

/-- A connected challenge-based connection whose Pending Response Buffer holds
the entries [65] then [66], used in concrete runs. -/
def bufferedChallenge : ChallengeConn :=
  { connChallenge with recvbuf := [[65], [66]] }

/-- The state after the concrete negotiation run of the C2 witness: the token
"tok" has been stored. -/
def negotiatedConn : ChallengeConn :=
  { connChallenge with challenge := [116, 111, 107] }

/-- The write log of the concrete send of the C2 witness. -/
def sentWrites : List Bytes :=
  [getchallengePacket,
   List.intercalate [0] [makeChallengeRCONMessage hmConst [112] [116, 111, 107] [99, 99]]]

theorem findSubFrom_eq_none_of_not_infix (pat : Bytes) :
    ∀ s : Bytes, ¬ pat <:+: s → findSubFrom pat s = none := by
  intro s
  induction s with
  | nil =>
    intro h
    have hne : pat ≠ [] := by
      intro hp
      exact h (hp ▸ List.infix_refl [])
    simp [findSubFrom, hne]
  | cons b rest ih =>
    intro h
    have hpre : pat.isPrefixOf (b :: rest) = false := by
      cases hp : pat.isPrefixOf (b :: rest) with
      | false => rfl
      | true =>
        exact absurd (List.isPrefixOf_iff_prefix.mp hp).isInfix h
    have hrest : ¬ pat <:+: rest := fun hr => h (List.infix_cons hr)
    simp [findSubFrom, hpre, ih hrest]

theorem findSubFrom_append_self (b : Nat) (bs rest : Bytes) :
    findSubFrom (b :: bs) ((b :: bs) ++ rest) = some 0 := by
  have hp : (b :: bs).isPrefixOf ((b :: bs) ++ rest) = true :=
    List.isPrefixOf_iff_prefix.mpr (List.prefix_append _ _)
  rw [List.cons_append] at hp ⊢
  simp [findSubFrom, hp]

theorem translateChallengeResponse_append (rest : Bytes) :
    translateChallengeResponse (challengePat ++ rest) = lazyCapture rest := by
  have h : challengePat = 255 :: [255, 255, 255, 99, 104, 97, 108, 108, 101, 110, 103, 101, 32] := by
    decide
  rw [translateChallengeResponse, h, findSubFrom_append_self]
  simp [List.drop_left]

theorem lazyCapture_stop_nul (tr : Bytes) :
    ∀ tok : Bytes, 0 ∉ tok → lazyCapture (tok ++ 0 :: tr) = tok := by
  intro tok
  induction tok with
  | nil => intro _; simp [lazyCapture]
  | cons b bs ih =>
    intro h
    have hb : b ≠ 0 := fun hb => h (hb ▸ List.mem_cons_self b bs)
    have hbs : 0 ∉ bs := fun hm => h (List.mem_cons_of_mem b hm)
    have hne : bs ++ 0 :: tr ≠ [] := by simp
    simp [lazyCapture, hb, hne, ih hbs]

theorem lazyCapture_no_stop :
    ∀ tok : Bytes, 0 ∉ tok → tok.getLast? ≠ some 10 → lazyCapture tok = tok := by
  intro tok
  induction tok with
  | nil => intro _ _; rfl
  | cons b bs ih =>
    intro h hl
    have hb : b ≠ 0 := fun hb => h (hb ▸ List.mem_cons_self b bs)
    have hbs : 0 ∉ bs := fun hm => h (List.mem_cons_of_mem b hm)
    cases bs with
    | nil =>
      have hb10 : b ≠ 10 := by
        intro hb10
        exact hl (by simp [hb10])
      simp [lazyCapture, hb, hb10]
    | cons c cs =>
      have hl₂ : (c :: cs).getLast? ≠ some 10 := by
        rwa [List.getLast?_cons_cons] at hl
      have hcond : ¬ (b = 10 ∧ c :: cs = []) := by simp
      show (if b = 0 then []
            else if b = 10 ∧ c :: cs = [] then []
            else b :: lazyCapture (c :: cs)) = b :: c :: cs
      rw [if_neg hb, if_neg hcond, ih hbs hl₂]

theorem lazyCapture_stop_final_newline :
    ∀ tok : Bytes, 0 ∉ tok → lazyCapture (tok ++ [10]) = tok := by
  intro tok
  induction tok with
  | nil => intro _; rfl
  | cons b bs ih =>
    intro h
    have hb : b ≠ 0 := fun hb => h (hb ▸ List.mem_cons_self b bs)
    have hbs : 0 ∉ bs := fun hm => h (List.mem_cons_of_mem b hm)
    have hne : bs ++ [10] ≠ [] := by simp
    simp [lazyCapture, hb, hne, ih hbs]

/-- C4 (code_bug evidence): teardown on a not-connected instance propagates
ConnectionRequired. The destructor body swallows only
`RCONAlreadyConnectedException`, but `disconnect()` on a disconnected
connection raises `RCONConnectionRequiredException`, which escapes; on a
connected instance teardown does implicitly disconnect. -/
theorem c4_teardown_propagates_connectionRequired :
    InsecureConn.del
        { pwd := asciiOf "pw", sock := none, bufsize := defaultBufferSize,
          timeout := defaultTimeout }
      = .error .connectionRequired
  ∧ InsecureConn.del
        { pwd := asciiOf "pw", sock := some (), bufsize := defaultBufferSize,
          timeout := defaultTimeout }
      = .ok { pwd := asciiOf "pw", sock := none, bufsize := defaultBufferSize,
              timeout := defaultTimeout } :=
  ⟨rfl, rfl⟩

/-- C6 (counterexample): the datagram FF FF FF 'n' 'A' does not begin with the
four-byte out-of-band marker, yet it decodes to the non-empty command response
"A", because the response pattern of the source has only three FF bytes and
the search is unanchored. -/
theorem c6_counterexample :
    ¬ (([255, 255, 255, 255] : Bytes) <+: [255, 255, 255, 110, 65])
  ∧ translateRCONResponse [255, 255, 255, 110, 65] = [65]
  ∧ ([65] : Bytes) ≠ [] := by
  decide

/-- C6 (amended): a datagram that contains neither the three-FF-then-'n'
response pattern nor the four-FF-then-"challenge " pattern anywhere in it
(not merely at its start) decodes to an empty result under both decoders,
and decoding is a total function (it never raises). -/
theorem c6_unrecognized_decodes_empty (s : Bytes)
    (h₁ : ¬ responsePat <:+: s) (h₂ : ¬ challengePat <:+: s) :
    translateRCONResponse s = [] ∧ translateChallengeResponse s = [] := by
  constructor
  · simp [translateRCONResponse, findSubFrom_eq_none_of_not_infix responsePat s h₁]
  · simp [translateChallengeResponse, findSubFrom_eq_none_of_not_infix challengePat s h₂]

/-- C6 (witness): the amended statement evaluated on the unrecognized
datagram [1, 2, 3]. -/
theorem c6_unrecognized_decodes_empty_witness :
    translateRCONResponse [1, 2, 3] = [] ∧ translateChallengeResponse [1, 2, 3] = [] :=
  c6_unrecognized_decodes_empty [1, 2, 3] (by decide) (by decide)

/-- C7 (counterexample): for the datagram marker + "challenge " + token with
token = 'a' LF and no NUL byte, decoding returns only 'a', not the whole
token: the capture also stops just before a datagram-final newline, because
the dollar anchor of the Python pattern matches there. -/
theorem c7_counterexample :
    translateChallengeResponse (challengePat ++ [97, 10]) = [97]
  ∧ ([97] : Bytes) ≠ [97, 10] := by
  decide

/-- C7 (amended): for datagrams marker + "challenge " + token (+ optional NUL
and trailing data), with a NUL-free token the capture stops at the first NUL
byte and everything after it is discarded; without a NUL it stops at the end
of the datagram provided the datagram does not end in a newline byte; and a
single datagram-final newline is dropped from the capture. -/
theorem c7_challenge_token_capture (tok trailing : Bytes) (h : 0 ∉ tok) :
    translateChallengeResponse (challengePat ++ (tok ++ 0 :: trailing)) = tok
  ∧ (tok.getLast? ≠ some 10 → translateChallengeResponse (challengePat ++ tok) = tok)
  ∧ translateChallengeResponse (challengePat ++ (tok ++ [10])) = tok := by
  refine ⟨?_, ?_, ?_⟩
  · rw [translateChallengeResponse_append, lazyCapture_stop_nul trailing tok h]
  · intro hl
    rw [translateChallengeResponse_append, lazyCapture_no_stop tok h hl]
  · rw [translateChallengeResponse_append, lazyCapture_stop_final_newline tok h]

/-- C7 (witness): the amended statement evaluated at token "tok" with trailing
data [1, 2] after the NUL. -/
theorem c7_challenge_token_capture_witness :
    translateChallengeResponse (challengePat ++ ([116, 111, 107] ++ 0 :: [1, 2]))
      = [116, 111, 107]
  ∧ translateChallengeResponse (challengePat ++ [116, 111, 107]) = [116, 111, 107]
  ∧ translateChallengeResponse (challengePat ++ ([116, 111, 107] ++ [10]))
      = [116, 111, 107] :=
  ⟨(c7_challenge_token_capture [116, 111, 107] [1, 2] (by decide)).1,
   (c7_challenge_token_capture [116, 111, 107] [1, 2] (by decide)).2.1 (by decide),
   (c7_challenge_token_capture [116, 111, 107] [1, 2] (by decide)).2.2⟩

/-- C9: constructing a challenge-based connection forwards every argument to
the parent initialiser except `timeout`, so whatever timeout argument is
supplied, the constructed state carries the default read/write timeout of 10
seconds. -/
theorem c9_timeout_argument_not_applied (pwd : Bytes) (connectFlag : Bool)
    (bufsize timeout challengeTimeout : Nat) :
    ∃ c : ChallengeConn,
      challengeInit pwd connectFlag bufsize timeout challengeTimeout = .ok c
      ∧ c.timeout = defaultTimeout ∧ defaultTimeout = 10 := by
  cases connectFlag with
  | false => exact ⟨_, rfl, rfl, rfl⟩
  | true => exact ⟨_, rfl, rfl, rfl⟩

/-- C3: whenever the Pending Response Buffer is non-empty, `read` returns the
oldest entry (the buffer is appended at the tail and popped at the head, so it
is FIFO), removes exactly that entry, and performs no socket receive; and when
the buffer is empty on a connected instance, `read` performs exactly one
blocking socket receive. -/
theorem c3_read_drains_buffer_before_socket :
    (∀ (c : ChallengeConn) (incoming v : Bytes) (rest : List Bytes),
      c.recvbuf = v :: rest →
      challengeRead c incoming = (.ok v, { c with recvbuf := rest }, 0))
  ∧ (∀ (c : ChallengeConn) (incoming : Bytes),
      c.recvbuf = [] → c.isConnected = true →
      (challengeRead c incoming).2.2 = 1) := by
  constructor
  · intro c incoming v rest h
    simp [challengeRead, h]
  · intro c incoming h hc
    simp [challengeRead, h, hc]

/-- C3 (witness): reading with a two-entry buffer pops the older entry and
touches no socket; reading with an empty buffer performs one socket receive. -/
theorem c3_read_drains_buffer_before_socket_witness :
    challengeRead bufferedChallenge [9]
      = (.ok [65], { bufferedChallenge with recvbuf := [[66]] }, 0)
  ∧ (challengeRead connChallenge [9]).2.2 = 1 :=
  ⟨c3_read_drains_buffer_before_socket.1 bufferedChallenge [9] [65] [[66]] rfl,
   c3_read_drains_buffer_before_socket.2 connChallenge [9] rfl rfl⟩

/-- C5 (counterexample): calling `send` on a never-connected challenge-based
connection does not fail with ConnectionRequired: `_recvchallenge` calls
`self._sock.send` before any connection guard runs, so Python raises an
attribute error on the `None` socket instead. -/
theorem c5_counterexample :
    challengeSend hmConst unconnChallenge [[99]] 0 [] = .attrError
  ∧ SendOutcome.attrError ≠ .err .connectionRequired := by
  exact ⟨rfl, by decide⟩

/-- C5 (amended): on the insecure connection, `send` and `read` on a
not-connected instance fail with ConnectionRequired, and so does `read` on a
never-connected challenge-based instance (its buffer is empty); but `send` on
a never-connected challenge-based instance fails with an attribute error on
the absent socket, not with ConnectionRequired; and `connect` on an already
connected instance fails with AlreadyConnected. -/
theorem c5_guards_amended :
    (∀ (c : InsecureConn) (cmds : List Bytes), c.isConnected = false →
        insecureSend c cmds = .error .connectionRequired)
  ∧ (∀ (c : InsecureConn) (incoming : Bytes), c.isConnected = false →
        insecureRead c incoming = .error .connectionRequired)
  ∧ (∀ (c : ChallengeConn) (incoming : Bytes), c.isConnected = false → c.recvbuf = [] →
        (challengeRead c incoming).1 = .error .connectionRequired)
  ∧ (∀ (hm : Bytes → Bytes → Bytes) (c : ChallengeConn) (cmds : List Bytes)
        (now : Nat) (events : List (Nat × Bytes)), c.isConnected = false →
        challengeSend hm c cmds now events = .attrError)
  ∧ (∀ c : InsecureConn, c.isConnected = true →
        InsecureConn.connect c = .error .alreadyConnected) := by
  refine ⟨?_, ?_, ?_, ?_, ?_⟩
  · intro c cmds h
    simp [insecureSend, h]
  · intro c incoming h
    simp [insecureRead, h]
  · intro c incoming h hbuf
    simp [challengeRead, h, hbuf]
  · intro hm c cmds now events h
    simp [challengeSend, h]
  · intro c h
    simp [InsecureConn.connect, h]

/-- C5 (witness): the amended statement evaluated on concrete connected and
not-connected connections. -/
theorem c5_guards_amended_witness :
    insecureSend unconnInsecure [[99]] = .error .connectionRequired
  ∧ insecureRead unconnInsecure [9] = .error .connectionRequired
  ∧ (challengeRead unconnChallenge [9]).1 = .error .connectionRequired
  ∧ challengeSend hmConst unconnChallenge [[99]] 1 [] = .attrError
  ∧ InsecureConn.connect connInsecure = .error .alreadyConnected :=
  ⟨c5_guards_amended.1 unconnInsecure [[99]] rfl,
   c5_guards_amended.2.1 unconnInsecure [9] rfl,
   c5_guards_amended.2.2.1 unconnChallenge [9] rfl rfl,
   c5_guards_amended.2.2.2.1 hmConst unconnChallenge [[99]] 1 [] rfl,
   c5_guards_amended.2.2.2.2 connInsecure rfl⟩

/-- C2: whenever a challenge-based `send` succeeds, its write log is exactly
one `getchallenge` datagram (one negotiation round-trip) followed by one
datagram built by joining the per-command packets with a single NUL byte,
every packet signed with the single token obtained by that negotiation. -/
theorem c2_send_one_negotiation_shared_token (hm : Bytes → Bytes → Bytes)
    (c : ChallengeConn) (cmds : List Bytes) (now : Nat)
    (events : List (Nat × Bytes)) (w : List Bytes) (c₂ : ChallengeConn)
    (h : challengeSend hm c cmds now events = .sent w c₂) :
    (recvchallenge c.challengeTimeout now events c.recvbuf).outcome = some c₂.challenge
  ∧ w = [getchallengePacket,
         List.intercalate [0] (cmds.map (makeChallengeRCONMessage hm c.pwd c₂.challenge))] := by
  unfold challengeSend at h
  by_cases hc : c.isConnected
  · rw [if_pos hc] at h
    cases ho : (recvchallenge c.challengeTimeout now events c.recvbuf).outcome with
    | none => rw [ho] at h; simp at h
    | some tok =>
      rw [ho] at h
      simp only [SendOutcome.sent.injEq] at h
      obtain ⟨hw, hc₂⟩ := h
      subst hc₂
      exact ⟨rfl, hw.symm⟩
  · rw [if_neg hc] at h
    simp at h

/-- C2 (witness): the theorem evaluated on a concrete connected connection,
one command "cc", and a challenge datagram arriving at time 1. -/
theorem c2_send_one_negotiation_shared_token_witness :
    (recvchallenge connChallenge.challengeTimeout 0 [(1, chalDatagram)]
        connChallenge.recvbuf).outcome = some negotiatedConn.challenge
  ∧ sentWrites = [getchallengePacket,
      List.intercalate [0]
        ([[99, 99]].map (makeChallengeRCONMessage hmConst connChallenge.pwd
          negotiatedConn.challenge))] :=
  c2_send_one_negotiation_shared_token hmConst connChallenge [[99, 99]] 0
    [(1, chalDatagram)] sentWrites negotiatedConn (by decide)

/-- C1 (counterexample): with a 10-unit challenge timeout and
negotiation starting at time 0 (deadline 10), the trace delivers a command
response at time 5 and a challenge response only at time 14. The deadline
elapses with no challenge response received (the sole pre-deadline datagram
is not a challenge response), yet negotiation returns the token at time 14
instead of failing with ChallengeTimeout: the last wait, bounded by the full
challenge timeout, extends past the deadline. -/
theorem c1_counterexample :
    translateChallengeResponse respDatagram = []
  ∧ (10 : Nat) ≤ 14
  ∧ (recvchallenge 10 0 [(5, respDatagram), (14, chalDatagram)] []).outcome
      = some [116, 111, 107]
  ∧ (recvchallenge 10 0 [(5, respDatagram), (14, chalDatagram)] []).now = 14 := by
  decide

/-- C1 (amended): in the negotiation loop, a received datagram decoding as a
command response has its decoded text appended to the Pending Response Buffer
and the loop continues; one decoding as a challenge response makes the token
be returned immediately; and whenever the loop re-checks the deadline (which
happens only between waits) and finds it elapsed with no challenge response
returned, negotiation fails with ChallengeTimeout — a challenge response
arriving after the deadline but within the final wait is still returned. -/
theorem c1_negotiation_classification :
    (∀ (cT deadline fuel now t : Nat) (s : Bytes) (rest : List (Nat × Bytes))
       (buf : List Bytes) (sel : List (Nat × Nat)),
       now < deadline → t ≤ now + cT → translateRCONResponse s ≠ [] →
       negoLoop cT deadline (fuel + 1) now ((t, s) :: rest) buf sel =
         negoLoop cT deadline fuel (max now t) rest (buf ++ [translateRCONResponse s])
           (sel ++ [(now, cT)]))
  ∧ (∀ (cT deadline fuel now t : Nat) (s : Bytes) (rest : List (Nat × Bytes))
       (buf : List Bytes) (sel : List (Nat × Nat)),
       now < deadline → t ≤ now + cT → translateRCONResponse s = [] →
       translateChallengeResponse s ≠ [] →
       negoLoop cT deadline (fuel + 1) now ((t, s) :: rest) buf sel =
         ⟨some (translateChallengeResponse s), buf, max now t, sel ++ [(now, cT)], rest⟩)
  ∧ (∀ (cT deadline fuel now : Nat) (events : List (Nat × Bytes))
       (buf : List Bytes) (sel : List (Nat × Nat)),
       deadline ≤ now →
       negoLoop cT deadline (fuel + 1) now events buf sel = ⟨none, buf, now, sel, events⟩) := by
  refine ⟨?_, ?_, ?_⟩
  · intro cT deadline fuel now t s rest buf sel h₁ h₂ h₃
    simp [negoLoop, h₁, h₂, h₃]
  · intro cT deadline fuel now t s rest buf sel h₁ h₂ h₃ h₄
    simp [negoLoop, h₁, h₂, h₃, h₄]
  · intro cT deadline fuel now events buf sel h
    have h₂ : ¬ now < deadline := Nat.not_lt.mpr h
    simp [negoLoop, h₂]

/-- C1 (witness): the three clauses of the amended statement evaluated on
concrete loop states. -/
theorem c1_negotiation_classification_witness :
    negoLoop 10 10 1 0 [(5, respDatagram)] [] [] =
      negoLoop 10 10 0 (max 0 5) [] ([] ++ [translateRCONResponse respDatagram])
        ([] ++ [(0, 10)])
  ∧ negoLoop 10 10 1 0 [(1, chalDatagram)] [] [] =
      ⟨some (translateChallengeResponse chalDatagram), [], max 0 1, [] ++ [(0, 10)], []⟩
  ∧ negoLoop 10 10 1 12 [] [] [] = ⟨none, [], 12, [], []⟩ :=
  ⟨c1_negotiation_classification.1 10 10 0 0 5 respDatagram [] [] []
     (by decide) (by decide) (by decide),
   c1_negotiation_classification.2.1 10 10 0 0 1 chalDatagram [] [] []
     (by decide) (by decide) (by decide) (by decide),
   c1_negotiation_classification.2.2 10 10 0 12 [] [] [] (by decide)⟩

/-- C10: a datagram received during negotiation that decodes as neither a
command response nor a challenge response is silently discarded: the loop
continues with the Pending Response Buffer unchanged and no error. -/
theorem c10_unrecognized_datagram_discarded (cT deadline fuel now t : Nat)
    (s : Bytes) (rest : List (Nat × Bytes)) (buf : List Bytes)
    (sel : List (Nat × Nat)) (h₁ : now < deadline) (h₂ : t ≤ now + cT)
    (h₃ : translateRCONResponse s = []) (h₄ : translateChallengeResponse s = []) :
    negoLoop cT deadline (fuel + 1) now ((t, s) :: rest) buf sel =
      negoLoop cT deadline fuel (max now t) rest buf (sel ++ [(now, cT)]) := by
  simp [negoLoop, h₁, h₂, h₃, h₄]

/-- C10 (witness): the statement evaluated on the unrecognized datagram
[1, 2, 3] arriving at time 2. -/
theorem c10_unrecognized_datagram_discarded_witness :
    negoLoop 10 10 1 0 [(2, [1, 2, 3])] [[7]] [] =
      negoLoop 10 10 0 (max 0 2) [] [[7]] ([] ++ [(0, 10)]) :=
  c10_unrecognized_datagram_discarded 10 10 0 0 2 [1, 2, 3] [] [[7]] []
    (by decide) (by decide) (by decide) (by decide)

theorem negoLoop_selects_sound (cT deadline : Nat) :
    ∀ (fuel now : Nat) (events : List (Nat × Bytes)) (buf : List Bytes)
      (sel : List (Nat × Nat)) (p : Nat × Nat),
      p ∈ (negoLoop cT deadline fuel now events buf sel).selects →
      p ∈ sel ∨ (p.2 = cT ∧ p.1 < deadline) := by
  intro fuel
  induction fuel with
  | zero =>
    intro now events buf sel p hp
    exact Or.inl hp
  | succ n ih =>
    intro now events buf sel p hp
    by_cases hd : now < deadline
    · have push : p ∈ sel ++ [(now, cT)] ∨ (p.2 = cT ∧ p.1 < deadline) →
          p ∈ sel ∨ (p.2 = cT ∧ p.1 < deadline) := by
        intro h
        rcases h with h | h
        · rcases List.mem_append.mp h with h | h
          · exact Or.inl h
          · simp at h
            exact Or.inr ⟨by simp [h], by simp [h]; exact hd⟩
        · exact Or.inr h
      cases events with
      | nil =>
        refine push (ih (now + cT) [] buf (sel ++ [(now, cT)]) p ?_)
        simpa [negoLoop, hd] using hp
      | cons e rest =>
        obtain ⟨t, s⟩ := e
        by_cases ht : t ≤ now + cT
        · by_cases hr : translateRCONResponse s = []
          · by_cases hcl : translateChallengeResponse s = []
            · refine push (ih (max now t) rest buf (sel ++ [(now, cT)]) p ?_)
              simpa [negoLoop, hd, ht, hr, hcl] using hp
            · refine push (Or.inl ?_)
              simpa [negoLoop, hd, ht, hr, hcl] using hp
          · refine push (ih (max now t) rest (buf ++ [translateRCONResponse s])
              (sel ++ [(now, cT)]) p ?_)
            simpa [negoLoop, hd, ht, hr] using hp
        · refine push (ih (now + cT) ((t, s) :: rest) buf (sel ++ [(now, cT)]) p ?_)
          simpa [negoLoop, hd, ht] using hp
    · refine Or.inl ?_
      simpa [negoLoop, hd] using hp

/-- C8 (counterexample): with challenge timeout 10 and negotiation starting at
time 0 (deadline 10), a command response arriving at time 3 makes the second
wait start with 7 units of budget remaining, yet that wait is given the full
bound 10 — not the remaining budget — and the run ends at time 12, past the
deadline, so the deadline is not honored within a small tolerance. -/
theorem c8_counterexample :
    (recvchallenge 10 0 [(3, respDatagram), (12, chalDatagram)] []).selects
      = [(0, 10), (3, 10)]
  ∧ ¬ ((10 : Nat) ≤ 10 - 3)
  ∧ (recvchallenge 10 0 [(3, respDatagram), (12, chalDatagram)] []).now = 12
  ∧ (10 : Nat) < 12 := by
  decide

/-- C8 (amended): every wait of a negotiation run is given the full configured
challenge timeout as its bound (a constant, not the remaining budget), and
every wait starts strictly before the deadline; the deadline is re-checked
only between waits, so negotiation can end after the deadline. -/
theorem c8_wait_bound_is_full_timeout (cT now : Nat) (events : List (Nat × Bytes))
    (recvbuf : List Bytes) (p : Nat × Nat)
    (hp : p ∈ (recvchallenge cT now events recvbuf).selects) :
    p.2 = cT ∧ p.1 < now + cT := by
  rcases negoLoop_selects_sound cT (now + cT) (events.length + 2) now events recvbuf [] p hp
    with h | h
  · simp at h
  · exact h

/-- C8 (witness): the second wait of the concrete run of the counterexample
trace, applied to the amended statement. -/
theorem c8_wait_bound_is_full_timeout_witness :
    ((3, 10) : Nat × Nat).2 = 10 ∧ ((3, 10) : Nat × Nat).1 < 0 + 10 :=
  c8_wait_bound_is_full_timeout 10 0 [(3, respDatagram), (12, chalDatagram)] []
    (3, 10) (by decide)
